import Mathlib

/-!
Shallow embedding of the backend-connection subsystem of the codis proxy
(`pkg/proxy/backend.go`).

Modelling conventions:
* Go machine integers that the claims touch are `Nat` or `Int`; no overflow is
  relevant at the sizes involved (`refcnt`, `fails`, millisecond delays).
* Go channels are modelled as lists when only their queued contents matter
  (`BackendConn.input`); channel capacity and blocking are not modelled.
* Go pointers to `sharedBackendConn` are modelled by values threaded
  explicitly; the aliasing between a receiver and its entry in the owning
  pool's map (the map stores the same pointer) is modelled by writing the
  updated receiver value back into the map at its address.
* `log.Panicf` aborts the calling function; fallible operations therefore
  return `Except String _`, with `.error` the panic path.
* External collaborators (the `redis` codec, `net.SplitHostPort`) are given
  minimal models sufficient for the fields the code reads.
-/

namespace Codis

/-- RESP frame types (model of the external `redis` package's `Resp.Type`). -/
inductive RespType where
  | simpleString
  | errorFrame
  | integerFrame
  | bulkBytes
  | arrayFrame
deriving DecidableEq, Repr

/-- Model of the external `redis.Resp`: a frame type together with its raw
value bytes (bytes modelled as characters). The nested array payload is not
read by any code under verification and is omitted. -/
structure Resp where
  rtype : RespType
  value : List Char
deriving DecidableEq, Repr

/-- Model of `redis.NewBulkBytes`. -/
def NewBulkBytes (value : List Char) : Resp :=
  { rtype := RespType.bulkBytes, value := value }

/-- Model of `Resp.IsError`. -/
def Resp.IsError (r : Resp) : Bool :=
  r.rtype == RespType.errorFrame

/-- The error values produced by the code under verification
(`errors.New` values and wrapped transport errors). -/
inductive Err where
  | backendConnReset
  | requestIsBroken
  | backendFailure (msg : String)
  | respIsRequired
deriving DecidableEq, Repr

/-- Model of the external `Request`: a multi-bulk command, output slots
`resp`/`err`, optional batch and group counters (the shared `WaitGroup`
counters are carried inline), and the read-only/broken flags. -/
structure Request where
  multi : List Resp
  resp : Option Resp := none
  err : Option Err := none
  batch : Option Int := none
  group : Option Int := none
  readOnly : Bool := false
  broken : Bool := false
deriving DecidableEq, Repr

/-- Model of the relevant `Config` knobs stored on a `BackendConn`. -/
structure Config where
  productAuth : String := ""
  backendMaxPipeline : Nat := 1024
deriving DecidableEq, Repr

/-- Constant `stateConnected = 1` (backend.go line 22). -/
def stateConnected : Int := 1

/-- Constant `stateDataStale = 2` (backend.go line 23). -/
def stateDataStale : Int := 2

/-- Modelled from the spec: the backoff generator `DelayExp2` lives in the
`utils/math2` package, which is not part of the given source. The spec
describes it as an "exponential backoff generator, doubling from 50ms to
5000ms, reset on successful connect"; `NewBackendConn` constructs it with
`Min: 50, Max: 5000, Unit: time.Millisecond`. All durations are in
milliseconds. -/
structure DelayExp2 where
  dmin : Nat := 50
  dmax : Nat := 5000
  value : Nat := 0
deriving DecidableEq, Repr

/-- Modelled from the spec: `Reset` restarts the doubling schedule. -/
def DelayExp2.Reset (d : DelayExp2) : DelayExp2 :=
  { d with value := 0 }

/-- Modelled from the spec: `After` yields the next interval of the doubling
schedule, clamped to `[dmin, dmax]`, and advances the generator. Returns
(interval in ms, advanced generator). -/
def DelayExp2.After (d : DelayExp2) : Nat × DelayExp2 :=
  let v := Nat.min (Nat.max (d.value * 2) d.dmin) d.dmax
  (v, { d with value := v })

/-- The `retry` struct embedded in `BackendConn` (fails counter + delay). -/
structure RetryState where
  fails : Nat := 0
  delay : DelayExp2 := {}
deriving DecidableEq, Repr

/-- Model of `BackendConn`. The supervisor/writer/reader goroutines are not
part of the state; `input` holds the queued requests of the input channel,
`inputClosed` records that `Close` has closed the channel (via `sync.Once`),
and `closed` is the atomic flag. -/
structure BackendConn where
  addr : String
  dbnum : Nat
  input : List Request := []
  inputClosed : Bool := false
  retry : RetryState := {}
  state : Int := 0
  closed : Bool := false
  config : Config := {}
deriving DecidableEq, Repr

/-- Function `NewBackendConn` (backend.go lines 42-55); the spawned `run` goroutine is
not modelled. -/
def NewBackendConn (addr : String) (dbnum : Nat) (config : Config) : BackendConn :=
  { addr := addr, dbnum := dbnum, config := config,
    input := [],
    retry := { fails := 0, delay := { dmin := 50, dmax := 5000, value := 0 } } }

/-- Method `BackendConn.Addr`. -/
def BackendConn.Addr (bc : BackendConn) : String :=
  bc.addr

/-- Method `BackendConn.Close` (lines 61-66): closes the input channel once and sets
the `closed` flag. -/
def BackendConn.Close (bc : BackendConn) : BackendConn :=
  { bc with inputClosed := true, closed := true }

/-- Method `BackendConn.IsConnected` (lines 68-70). -/
def BackendConn.IsConnected (bc : BackendConn) : Bool :=
  bc.state == stateConnected

/-- Method `BackendConn.PushBack` (lines 72-77): increments the batch counter when a
batch is attached, then enqueues the request. -/
def BackendConn.PushBack (bc : BackendConn) (r : Request) : BackendConn :=
  let r :=
    match r.batch with
    | some n => { r with batch := some (n + 1) }
    | none => r
  { bc with input := bc.input ++ [r] }

/-- The synthetic request built by `KeepAlive` (lines 86-89): a zero-valued
`Request` whose `Multi` is the single bulk string `PING`. -/
def pingRequest : Request :=
  { multi := [NewBulkBytes (String.toList "PING")] }

/-- Method `BackendConn.KeepAlive` (lines 79-92). -/
def BackendConn.KeepAlive (bc : BackendConn) : Bool × BackendConn :=
  let bc :=
    if bc.state = stateDataStale then { bc with state := stateConnected } else bc
  if bc.input.length ≠ 0 then
    (false, bc)
  else
    (true, bc.PushBack pingRequest)

/-- Method `BackendConn.setResponse` (lines 178-187): stores the response and error
slots and decrements the group and batch counters when present. The Go
function returns `err`; the model returns the updated request. -/
def setResponse (r : Request) (resp : Option Resp) (err : Option Err) : Request :=
  let r := { r with resp := resp, err := err }
  let r :=
    match r.group with
    | some n => { r with group := some (n - 1) }
    | none => r
  match r.batch with
  | some n => { r with batch := some (n - 1) }
  | none => r

/-- Constant `errMasterDown` (line 205). -/
def errMasterDown : List Char :=
  String.toList "MASTERDOWN"

/-- Model of `bytes.HasPrefix` on the byte-list model: `startsWithBytes s p` is true
iff `p` is a prefix of `s`. -/
def startsWithBytes : List Char → List Char → Bool
  | _, [] => true
  | [], _ :: _ => false
  | b :: bs, p :: ps => p == b && startsWithBytes bs ps

/-- One iteration of the reader loop body (lines 215-229) for one in-flight
request `r`: `decoded` is the outcome of `c.Decode()` (`.error` a transport
error, `.ok` a frame or a nil frame). Returns the connection state after the
iteration, the completed request, and whether the loop continues. -/
def loopReaderStep (state : Int) (r : Request) (decoded : Except String (Option Resp)) :
    Int × Request × Bool :=
  match decoded with
  | Except.error e =>
    (state, setResponse r none (some (Err.backendFailure (String.append "backend conn failure, " e))), false)
  | Except.ok respOpt =>
    let masterDown :=
      match respOpt with
      | some resp => resp.IsError && startsWithBytes resp.value errMasterDown
      | none => false
    let state2 :=
      if masterDown && state == stateConnected then stateDataStale else state
    (state2, setResponse r respOpt none, true)

/-- Method `delayBeforeRetry` (lines 233-250), the part deciding the wait: increment
`retry.fails`; no wait for the first 10 consecutive failures; from the 11th,
pull the next interval from the delay generator. Returns the updated retry
state and the wait duration in ms (as observed when the timer fires). The
concurrent drain performed while sleeping is modelled by
`drainDuringDelay`. -/
def delayBeforeRetry (st : RetryState) : RetryState × Nat :=
  let st := { st with fails := st.fails + 1 }
  if st.fails ≤ 10 then
    (st, 0)
  else
    let wd := st.delay.After
    ({ st with delay := wd.2 }, wd.1)

/-- One event observed by the select loop of `delayBeforeRetry`
(lines 239-249): the backoff timer fires, a request arrives on the input
channel, or the input channel is found closed. -/
inductive RetryEvent where
  | timerFired
  | arrived (r : Request)
  | inputChannelClosed
deriving DecidableEq, Repr

/-- The select loop of `delayBeforeRetry` (lines 239-249) over a finite trace
of observations: each list element is the value of `bc.closed` sampled at the
loop head paired with the select outcome. Returns the requests drained and
completed (each via `setResponse(r, nil, ErrBackendConnReset)`); the loop
exits when `closed` is seen true, the timer fires, or the channel closes. -/
def drainDuringDelay : List (Bool × RetryEvent) → List Request
  | [] => []
  | (closed, ev) :: rest =>
    if closed then []
    else
      match ev with
      | RetryEvent.timerFired => []
      | RetryEvent.inputChannelClosed => []
      | RetryEvent.arrived r =>
        setResponse r none (some Err.backendConnReset) :: drainDuringDelay rest

/-- The retry-state effect of a successful handshake in `loopWriter`
(lines 268-270): `retry.fails = 0` and `retry.delay.Reset()`. -/
def handshakeSuccess (st : RetryState) : RetryState :=
  { st with fails := 0, delay := st.delay.Reset }

/-- The retry state after `K` consecutive failed writer sessions starting
from a fresh (or freshly reset) state, paired with the wait performed after
the `K`-th failure: each failed session calls `delayBeforeRetry` once
(`run`, lines 196-201). -/
def iterRetry : Nat → RetryState × Nat
  | 0 => ({ fails := 0, delay := { dmin := 50, dmax := 5000, value := 0 } }, 0)
  | n + 1 => delayBeforeRetry (iterRetry n).1

/-- The wait in ms performed after the `K`-th consecutive failed session. -/
def kthWait (k : Nat) : Nat :=
  (iterRetry k).2

/-- Model of `sharedBackendConn` (lines 293-304). The `owner` back-pointer is
modelled by threading the owning pool explicitly through the operations. -/
structure sharedBackendConn where
  addr : String
  host : String
  port : String
  conns : List (List BackendConn)
  single : Option BackendConn
  refcnt : Int
deriving DecidableEq, Repr

/-- Minimal model of the external `net.SplitHostPort`: split at the last
colon; when there is no colon the Go code logs the error and continues with
empty host and port. -/
def splitAtLastColon : List Char → Option (List Char × List Char)
  | [] => none
  | c :: cs =>
    match splitAtLastColon cs with
    | some hp => some (c :: hp.1, hp.2)
    | none => if c = ':' then some ([], cs) else none

/-- The call `host, port, err := net.SplitHostPort(addr)` as used in
`newSharedBackendConn` (lines 307-310). -/
def splitHostPort (addr : String) : String × String :=
  match splitAtLastColon addr.toList with
  | some hp => (String.mk hp.1, String.mk hp.2)
  | none => ("", "")

/-- Model of `sharedBackendConnPool` (lines 407-412); the Go map is an
association list with unique keys. -/
structure sharedBackendConnPool where
  parallel : Nat
  database : Nat
  pool : List (String × sharedBackendConn)
deriving DecidableEq, Repr

/-- Go map lookup `p.pool[addr]`. -/
def poolLookup (m : List (String × sharedBackendConn)) (addr : String) :
    Option sharedBackendConn :=
  (m.find? (fun kv => kv.1 == addr)).map (fun kv => kv.2)

/-- Mutation through the shared pointer: the entry stored at `addr` now shows
the updated value. -/
def poolUpdate (m : List (String × sharedBackendConn)) (addr : String)
    (s : sharedBackendConn) : List (String × sharedBackendConn) :=
  m.map (fun kv => if kv.1 = addr then (kv.1, s) else kv)

/-- Go map deletion `delete(p.pool, addr)`. -/
def poolDelete (m : List (String × sharedBackendConn)) (addr : String) :
    List (String × sharedBackendConn) :=
  m.filter (fun kv => kv.1 ≠ addr)

/-- Function `newSharedBackendConn` (lines 306-328): parse host/port, build the
`database × parallel` grid of freshly started `BackendConn` (slot `[db][i]`
created with database index `db`), set the `single` shortcut when both
dimensions are 1, start at refcount 1. -/
def newSharedBackendConn (addr : String) (config : Config)
    (p : sharedBackendConnPool) : sharedBackendConn :=
  let hp := splitHostPort addr
  let conns := (List.range p.database).map
    (fun dbnum => (List.range p.parallel).map
      (fun _ => NewBackendConn addr dbnum config))
  let single :=
    if conns.length = 1 ∧ (conns.getD 0 []).length = 1 then
      (conns.getD 0 []).head?
    else
      none
  { addr := addr, host := hp.1, port := hp.2,
    conns := conns, single := single, refcnt := 1 }

/-- Method `sharedBackendConn.Addr` (lines 330-335). -/
def sharedBackendConn.Addr (s : Option sharedBackendConn) : String :=
  match s with
  | none => ""
  | some s => s.addr

/-- The close loop of `Release` (lines 349-353): `Close` every owned
`BackendConn` of the grid. -/
def closeConnsGrid (conns : List (List BackendConn)) : List (List BackendConn) :=
  conns.map (fun row => row.map BackendConn.Close)

/-- Method `sharedBackendConn.Release` (lines 337-355) with the owning pool threaded
explicitly. Returns the receiver after the call and the pool after the call;
`.error` is the `log.Panicf` path. On the final release every owned
`BackendConn` is closed and the entry is removed from the pool map. -/
def sharedBackendConn.Release (s : Option sharedBackendConn)
    (p : sharedBackendConnPool) :
    Except String (Option sharedBackendConn × sharedBackendConnPool) :=
  match s with
  | none => Except.ok (none, p)
  | some s =>
    if s.refcnt ≤ 0 then
      Except.error "shared backend conn has been closed, close too many times"
    else
      let s := { s with refcnt := s.refcnt - 1 }
      if s.refcnt ≠ 0 then
        Except.ok (some s, { p with pool := poolUpdate p.pool s.addr s })
      else
        let s := { s with conns := closeConnsGrid s.conns }
        Except.ok (some s, { p with pool := poolDelete p.pool s.addr })

/-- Method `sharedBackendConn.Retain` (lines 357-367) with the owning pool threaded
explicitly (the Go method touches only the receiver; the pool writeback
models the aliasing of the receiver with its map entry). -/
def sharedBackendConn.Retain (s : Option sharedBackendConn)
    (p : sharedBackendConnPool) :
    Except String (Option sharedBackendConn × sharedBackendConnPool) :=
  match s with
  | none => Except.ok (none, p)
  | some s =>
    if s.refcnt ≤ 0 then
      Except.error "shared backend conn has been closed"
    else
      let s := { s with refcnt := s.refcnt + 1 }
      Except.ok (some s, { p with pool := poolUpdate p.pool s.addr s })

/-- The scan loop of `sharedBackendConn.BackendConn` (lines 393-400):
starting from running index `i`, advance `fuel` times through
`i = (i+1) % len(conns)` and return the first connected slot. -/
def scanConns (conns : List BackendConn) : Nat → Nat → Option BackendConn
  | _, 0 => none
  | i, fuel + 1 =>
    let j := (i + 1) % conns.length
    match conns.get? j with
    | some bc => if bc.IsConnected then some bc else scanConns conns j fuel
    | none => none

/-- Method `sharedBackendConn.BackendConn` (lines 380-405): the per-request slot
selection. Out-of-range indexing (which would panic in Go) is modelled with
`getD`/`head?`; the theorems about this function restrict `dbnum` to the
grid as the Go callers do. -/
def sharedBackendConn_BackendConn (s : Option sharedBackendConn)
    (dbnum : Nat) (seed : Nat) (must : Bool) : Option BackendConn :=
  match s with
  | none => none
  | some s =>
    match s.single with
    | some bc => if must || bc.IsConnected then some bc else none
    | none =>
      let conns := s.conns.getD dbnum []
      match scanConns conns seed conns.length with
      | some bc => some bc
      | none =>
        if !must then none
        else (s.conns.getD dbnum []).head?

/-- The selection policy in the spec's own words (spec §4.2): scan
`conns[db]` over the index sequence `(seed+1) mod P, …, (seed+P) mod P` and
take the first connected slot; fall back to null or slot 0 according to
`must`; the `single` shortcut bypasses the scan. Stated independently of the
loop in the source so that the two can be compared. -/
def specSelect (s : Option sharedBackendConn)
    (dbnum : Nat) (seed : Nat) (must : Bool) : Option BackendConn :=
  match s with
  | none => none
  | some s =>
    match s.single with
    | some bc => if must || bc.IsConnected then some bc else none
    | none =>
      let conns := s.conns.getD dbnum []
      let order := (List.range conns.length).map
        (fun k => (seed + 1 + k) % conns.length)
      match order.findSome?
          (fun j => (conns.get? j).bind
            (fun bc => if bc.IsConnected then some bc else none)) with
      | some bc => some bc
      | none =>
        if !must then none
        else conns.head?

/-- Function `newSharedBackendConnPool` (lines 414-420). -/
def newSharedBackendConnPool (parallel database : Nat) : sharedBackendConnPool :=
  { parallel := Nat.max 1 parallel, database := Nat.max 1 database, pool := [] }

/-- Method `sharedBackendConnPool.Get` (lines 428-430). -/
def sharedBackendConnPool.Get (p : sharedBackendConnPool) (addr : String) :
    Option sharedBackendConn :=
  poolLookup p.pool addr

/-- Method `sharedBackendConnPool.Retain` (lines 432-440): retain the existing entry
or build, insert and return a fresh one. -/
def sharedBackendConnPool.Retain (p : sharedBackendConnPool) (addr : String)
    (config : Config) :
    Except String (Option sharedBackendConn × sharedBackendConnPool) :=
  match poolLookup p.pool addr with
  | some bc => sharedBackendConn.Retain (some bc) p
  | none =>
    let bc := newSharedBackendConn addr config p
    Except.ok (some bc, { p with pool := p.pool ++ [(addr, bc)] })

/-- Runs `n` successive `Retain` calls on the receiver (threading the pool). -/
def retainN : Nat → Option sharedBackendConn → sharedBackendConnPool →
    Except String (Option sharedBackendConn × sharedBackendConnPool)
  | 0, s, p => Except.ok (s, p)
  | n + 1, s, p =>
    match sharedBackendConn.Retain s p with
    | Except.error e => Except.error e
    | Except.ok sp => retainN n sp.1 sp.2

/-- Runs `n` successive `Release` calls on the receiver (threading the pool). -/
def releaseN : Nat → Option sharedBackendConn → sharedBackendConnPool →
    Except String (Option sharedBackendConn × sharedBackendConnPool)
  | 0, s, p => Except.ok (s, p)
  | n + 1, s, p =>
    match sharedBackendConn.Release s p with
    | Except.error e => Except.error e
    | Except.ok sp => releaseN n sp.1 sp.2

/-- Concrete fixture for witnesses: a freshly constructed connection whose
state has become DataStale and whose input queue is empty. -/
def bcStaleIdle : BackendConn :=
  { NewBackendConn "x:1" 0 {} with state := stateDataStale }

/-- Concrete fixture for witnesses: an error frame whose value begins with
`MASTERDOWN`. -/
def masterDownResp : Resp :=
  { rtype := RespType.errorFrame, value := String.toList "MASTERDOWN master is down" }

/-- Concrete fixture for witnesses: a connected fresh connection. -/
def bcConnectedFix : BackendConn :=
  { NewBackendConn "y:1" 0 {} with state := stateConnected }

/-- Concrete fixture for witnesses: a single-slot shared entry. -/
def sbcSingleFix : sharedBackendConn :=
  { addr := "x:1", host := "x", port := "1",
    conns := [[bcStaleIdle]], single := some bcStaleIdle, refcnt := 1 }

/-- Concrete fixture for witnesses: a two-slot shared entry with no `single`
shortcut, first slot stale and second slot connected. -/
def sbcScanFix : sharedBackendConn :=
  { addr := "y:1", host := "y", port := "1",
    conns := [[bcStaleIdle, bcConnectedFix]], single := none, refcnt := 1 }

/-- Concrete fixture for witnesses: a pool holding `sbcSingleFix`. -/
def poolFix : sharedBackendConnPool :=
  { parallel := 1, database := 1, pool := [("x:1", sbcSingleFix)] }

/-- Concrete fixture for witnesses: an empty 1×1 pool. -/
def poolEmptyFix : sharedBackendConnPool :=
  { parallel := 1, database := 1, pool := [] }

/-- The pool map with every entry reduced to its key and its grid of owned
connections: the view under which "the pool map and the grids are unchanged"
is stated. -/
def poolConnsView (m : List (String × sharedBackendConn)) :
    List (String × List (List BackendConn)) :=
  m.map (fun kv => (kv.1, kv.2.conns))

/-! ## Helper lemmas -/

theorem setResponse_fields (r : Request) (resp : Option Resp) (err : Option Err) :
    (setResponse r resp err).resp = resp ∧ (setResponse r resp err).err = err := by
  unfold setResponse
  cases hg : r.group <;> cases hb : r.batch <;> simp [hg, hb]

/-! ## Claim theorems -/

/-- C3: `KeepAlive` first compare-and-swaps state DataStale → Connected;
then, if the input queue is non-empty, it returns false without enqueueing
anything; otherwise it enqueues a synthetic request whose `Multi` is the
single bulk string `PING` and whose batch and group are nil, and returns
true. -/
theorem keepAlive_spec (bc : BackendConn) :
    ((BackendConn.KeepAlive bc).2.state
        = if bc.state = stateDataStale then stateConnected else bc.state)
    ∧ (bc.input ≠ [] →
        (BackendConn.KeepAlive bc).1 = false
        ∧ (BackendConn.KeepAlive bc).2.input = bc.input)
    ∧ (bc.input = [] →
        (BackendConn.KeepAlive bc).1 = true
        ∧ (BackendConn.KeepAlive bc).2.input = [pingRequest]
        ∧ pingRequest.multi = [NewBulkBytes (String.toList "PING")]
        ∧ pingRequest.batch = none
        ∧ pingRequest.group = none) := by
  unfold BackendConn.KeepAlive
  by_cases h1 : bc.state = stateDataStale <;> by_cases h2 : bc.input = [] <;>
    simp [h1, h2, BackendConn.PushBack, pingRequest]

/-- Witness for `keepAlive_spec` at a concrete stale, idle connection. -/
theorem keepAlive_spec_witness :
    bcStaleIdle.input = []
    ∧ (BackendConn.KeepAlive bcStaleIdle).1 = true
    ∧ (BackendConn.KeepAlive bcStaleIdle).2.state = stateConnected := by
  have h := keepAlive_spec bcStaleIdle
  refine ⟨rfl, (h.2.2 rfl).1, ?_⟩
  rw [h.1]
  decide

/-- C8: when the reader decodes, for an in-flight request, a RESP error
frame whose value begins with `MASTERDOWN`, it compare-and-swaps the state
Connected → DataStale (any other state is unchanged), completes the request
with the frame as its `Resp` and a nil `Err`, and the session continues. -/
theorem loopReader_masterdown_spec (state : Int) (r : Request) (resp : Resp)
    (herr : resp.IsError = true)
    (hpre : startsWithBytes resp.value errMasterDown = true) :
    loopReaderStep state r (Except.ok (some resp))
      = ((if state = stateConnected then stateDataStale else state),
         setResponse r (some resp) none, true)
    ∧ (setResponse r (some resp) none).resp = some resp
    ∧ (setResponse r (some resp) none).err = none := by
  refine ⟨?_, (setResponse_fields r (some resp) none).1,
    (setResponse_fields r (some resp) none).2⟩
  unfold loopReaderStep
  simp only [herr, hpre, Bool.and_self, Bool.true_and]
  by_cases h : state = stateConnected <;> simp [h, stateConnected]

/-- Witness for `loopReader_masterdown_spec` on a connected state and a
concrete MASTERDOWN error frame. -/
theorem loopReader_masterdown_spec_witness :
    (masterDownResp.IsError = true)
    ∧ (startsWithBytes masterDownResp.value errMasterDown = true)
    ∧ loopReaderStep stateConnected pingRequest (Except.ok (some masterDownResp))
      = (stateDataStale, setResponse pingRequest (some masterDownResp) none, true) := by
  refine ⟨by decide, by decide, ?_⟩
  have h := loopReader_masterdown_spec stateConnected pingRequest masterDownResp
    (by decide) (by decide)
  rw [h.1]
  simp

/-- C9: when the pool map already contains `addr`, `Pool.Retain` never reads
the config: its behaviour is identical for any two configs, and it is
exactly a `Retain` of the existing entry (no new connection is built). -/
theorem pool_Retain_config_irrelevant (p : sharedBackendConnPool)
    (addr : String) (c1 c2 : Config) (s : sharedBackendConn)
    (h : poolLookup p.pool addr = some s) :
    sharedBackendConnPool.Retain p addr c1 = sharedBackendConnPool.Retain p addr c2
    ∧ sharedBackendConnPool.Retain p addr c1 = sharedBackendConn.Retain (some s) p := by
  unfold sharedBackendConnPool.Retain
  rw [h]
  exact ⟨rfl, rfl⟩

/-- C10: when the `single` shortcut is non-null, slot selection ignores both
the database index and the seed, returning the single connection or null by
the `must`/`IsConnected` rule alone. -/
theorem backendConn_single_shortcut_ignores_args (s : sharedBackendConn)
    (bc : BackendConn) (hs : s.single = some bc)
    (db1 db2 seed1 seed2 : Nat) (must : Bool) :
    sharedBackendConn_BackendConn (some s) db1 seed1 must
      = sharedBackendConn_BackendConn (some s) db2 seed2 must
    ∧ sharedBackendConn_BackendConn (some s) db1 seed1 must
      = (if must || bc.IsConnected then some bc else none) := by
  constructor <;> simp [sharedBackendConn_BackendConn, hs]

/-- Witness for `pool_Retain_config_irrelevant` at a concrete populated pool
and two distinct configs. -/
theorem pool_Retain_config_irrelevant_witness :
    poolLookup poolFix.pool "x:1" = some sbcSingleFix
    ∧ sharedBackendConnPool.Retain poolFix "x:1" { productAuth := "a" }
        = sharedBackendConnPool.Retain poolFix "x:1" { productAuth := "b" } :=
  ⟨rfl, (pool_Retain_config_irrelevant poolFix "x:1" { productAuth := "a" }
    { productAuth := "b" } sbcSingleFix rfl).1⟩

/-- Witness for `backendConn_single_shortcut_ignores_args` at a concrete
single-slot entry and two different database indices and seeds. -/
theorem backendConn_single_shortcut_ignores_args_witness :
    sbcSingleFix.single = some bcStaleIdle
    ∧ sharedBackendConn_BackendConn (some sbcSingleFix) 0 3 false
        = sharedBackendConn_BackendConn (some sbcSingleFix) 5 7 false :=
  ⟨rfl, (backendConn_single_shortcut_ignores_args sbcSingleFix bcStaleIdle rfl
    0 5 3 7 false).1⟩

/-- The running-index scan loop of `BackendConn` selection equals a first
hit over the explicit index sequence `(i+1) % P, (i+2) % P, …, (i+n) % P`. -/
theorem scanConns_eq_findSome (conns : List BackendConn) :
    ∀ (n i : Nat),
      scanConns conns i n
        = ((List.range n).map (fun k => (i + 1 + k) % conns.length)).findSome?
            (fun j => (conns.get? j).bind
              (fun bc => if bc.IsConnected then some bc else none)) := by
  intro n
  induction n with
  | zero => intro i; rfl
  | succ n ih =>
    intro i
    simp only [scanConns]
    rw [List.range_succ_eq_map, List.map_cons, List.map_map, List.findSome?_cons]
    simp only [Nat.add_zero]
    cases hj : conns.get? ((i + 1) % conns.length) with
    | none =>
      have hlen : conns.length = 0 := by
        rcases Nat.eq_zero_or_pos conns.length with h0 | hpos
        · exact h0
        · exfalso
          have hlt : (i + 1) % conns.length < conns.length := Nat.mod_lt _ hpos
          have hle : conns.length ≤ (i + 1) % conns.length := List.get?_eq_none.mp hj
          omega
      have hnil : conns = [] := List.length_eq_zero.mp hlen
      subst hnil
      simp only [List.get?_nil, Option.none_bind]
      exact (List.findSome?_eq_none_iff.mpr (fun x _ => rfl)).symm
    | some bc =>
      by_cases hc : bc.IsConnected
      · simp [hj, hc]
      · simp only [hj, hc, Option.some_bind, if_neg, Bool.not_eq_true, if_false]
        have hfun : ((fun k => (i + 1 + k) % conns.length) ∘ Nat.succ)
            = (fun k => (((i + 1) % conns.length) + 1 + k) % conns.length) := by
          funext k
          simp only [Function.comp]
          conv_rhs => rw [Nat.add_assoc, Nat.mod_add_mod]
          congr 1
          omega
        rw [hfun, ← ih ((i + 1) % conns.length)]

/-- C2: slot selection follows the specified policy: the `single` shortcut,
else a scan of `conns[db]` starting at `(seed+1) mod P` through all `P`
slots returning the first connected one, else null or slot 0 according to
`must`; a null receiver yields null. Stated as equality with `specSelect`,
the policy transcribed from the spec text. -/
theorem backendConn_selection_follows_policy (s : sharedBackendConn)
    (dbnum seed : Nat) (must : Bool)
    (_hdb : dbnum < s.conns.length) (_hrow : s.conns.getD dbnum [] ≠ []) :
    sharedBackendConn_BackendConn (some s) dbnum seed must
      = specSelect (some s) dbnum seed must
    ∧ sharedBackendConn_BackendConn none dbnum seed must = none := by
  constructor
  · simp only [sharedBackendConn_BackendConn, specSelect]
    cases hs : s.single with
    | some bc => rfl
    | none =>
      rw [scanConns_eq_findSome]
  · rfl

/-- Witness for `backendConn_selection_follows_policy` at a concrete
two-slot entry. -/
theorem backendConn_selection_follows_policy_witness :
    (0 < sbcScanFix.conns.length ∧ sbcScanFix.conns.getD 0 [] ≠ [])
    ∧ sharedBackendConn_BackendConn (some sbcScanFix) 0 4 false
        = specSelect (some sbcScanFix) 0 4 false :=
  ⟨⟨by decide, by decide⟩,
   (backendConn_selection_follows_policy sbcScanFix 0 4 false (by decide)
     (by decide)).1⟩

/-- Updating a pool entry preserves the keys of the map. -/
theorem poolUpdate_keys (m : List (String × sharedBackendConn)) (a : String)
    (s : sharedBackendConn) :
    (poolUpdate m a s).map (fun kv => kv.1) = m.map (fun kv => kv.1) := by
  unfold poolUpdate
  rw [List.map_map]
  apply List.map_congr_left
  intro kv _
  by_cases h : kv.1 = a <;> simp [h]

/-- Updating a pool entry with a value whose grid agrees with the stored one
preserves the conns view of the map. -/
theorem poolUpdate_connsView (m : List (String × sharedBackendConn)) (a : String)
    (s : sharedBackendConn)
    (h : ∀ kv ∈ m, kv.1 = a → kv.2.conns = s.conns) :
    poolConnsView (poolUpdate m a s) = poolConnsView m := by
  unfold poolConnsView poolUpdate
  rw [List.map_map]
  apply List.map_congr_left
  intro kv hkv
  by_cases hk : kv.1 = a
  · have hc := h kv hkv hk
    simp [hk, hc]
  · simp [hk]

/-- Deleting an address removes it from the map: a subsequent lookup fails. -/
theorem poolLookup_delete (m : List (String × sharedBackendConn)) (a : String) :
    poolLookup (poolDelete m a) a = none := by
  induction m with
  | nil => rfl
  | cons kv t ih =>
    unfold poolDelete poolLookup at ih ⊢
    rw [List.filter_cons]
    by_cases h : kv.1 = a
    · simp [h, ih]
    · have hb : (kv.1 == a) = false := by simp [h]
      simp [h, hb, List.find?_cons, ih]

/-- C4: `Release` on a null receiver is a no-op; on a non-positive refcount
it takes the fatal (panic) path without decrementing; otherwise it
decrements the refcount, and only when the count reaches zero does it close
every owned `BackendConn` and delete the address from the owning pool's map;
while the count stays positive the keys and the grids of the map are
untouched. -/
theorem sharedBackendConn_Release_spec (p : sharedBackendConnPool)
    (s : sharedBackendConn) :
    (sharedBackendConn.Release none p = Except.ok (none, p))
    ∧ (s.refcnt ≤ 0 →
        sharedBackendConn.Release (some s) p
          = Except.error "shared backend conn has been closed, close too many times")
    ∧ (s.refcnt = 1 →
        sharedBackendConn.Release (some s) p
          = Except.ok (some { s with refcnt := 0, conns := closeConnsGrid s.conns },
              { p with pool := poolDelete p.pool s.addr })
        ∧ (∀ row ∈ closeConnsGrid s.conns,
            ∀ bc ∈ row, bc.closed = true ∧ bc.inputClosed = true)
        ∧ poolLookup (poolDelete p.pool s.addr) s.addr = none)
    ∧ (1 < s.refcnt →
        sharedBackendConn.Release (some s) p
          = Except.ok (some { s with refcnt := s.refcnt - 1 },
              { p with pool := poolUpdate p.pool s.addr { s with refcnt := s.refcnt - 1 } })
        ∧ (poolUpdate p.pool s.addr { s with refcnt := s.refcnt - 1 }).map (fun kv => kv.1)
            = p.pool.map (fun kv => kv.1)
        ∧ ((∀ kv ∈ p.pool, kv.1 = s.addr → kv.2.conns = s.conns) →
            poolConnsView (poolUpdate p.pool s.addr { s with refcnt := s.refcnt - 1 })
              = poolConnsView p.pool)) := by
  refine ⟨rfl, ?_, ?_, ?_⟩
  · intro h
    simp [sharedBackendConn.Release, h]
  · intro h
    refine ⟨?_, ?_, poolLookup_delete p.pool s.addr⟩
    · have h1 : ¬ s.refcnt ≤ 0 := by omega
      simp [sharedBackendConn.Release, h1, h]
    · intro row hrow bc hbc
      rw [closeConnsGrid, List.mem_map] at hrow
      obtain ⟨row0, _, hrow0⟩ := hrow
      subst hrow0
      rw [List.mem_map] at hbc
      obtain ⟨bc0, _, hbc0⟩ := hbc
      subst hbc0
      exact ⟨rfl, rfl⟩
  · intro h
    refine ⟨?_, poolUpdate_keys _ _ _, ?_⟩
    · have h1 : ¬ s.refcnt ≤ 0 := by omega
      have h2 : ¬ s.refcnt - 1 = 0 := by omega
      simp [sharedBackendConn.Release, h1, h2]
    · intro hmem
      apply poolUpdate_connsView
      intro kv hkv hk
      exact hmem kv hkv hk

/-- Witness for `sharedBackendConn_Release_spec`: the final release of a
concrete entry closes the grid and deletes the map entry. -/
theorem sharedBackendConn_Release_spec_witness :
    (sbcSingleFix.refcnt = 1)
    ∧ sharedBackendConn.Release (some sbcSingleFix) poolFix
        = Except.ok (some { sbcSingleFix with refcnt := 0, conns := closeConnsGrid sbcSingleFix.conns },
            { poolFix with pool := poolDelete poolFix.pool sbcSingleFix.addr }) :=
  ⟨rfl, ((sharedBackendConn_Release_spec poolFix sbcSingleFix).2.2.1 rfl).1⟩

/-- Two successive updates at the same address collapse to the second. -/
theorem poolUpdate_update (m : List (String × sharedBackendConn)) (a : String)
    (s1 s2 : sharedBackendConn) :
    poolUpdate (poolUpdate m a s1) a s2 = poolUpdate m a s2 := by
  unfold poolUpdate
  rw [List.map_map]
  apply List.map_congr_left
  intro kv _
  by_cases h : kv.1 = a <;> simp [h]

/-- Updating the entry at `a` to the value it already holds is the
identity. -/
theorem poolUpdate_self (m : List (String × sharedBackendConn)) (a : String)
    (s : sharedBackendConn) :
    (∀ kv ∈ m, kv.1 = a → kv.2 = s) → poolUpdate m a s = m := by
  induction m with
  | nil => intro _; rfl
  | cons kv t ih =>
    intro h
    unfold poolUpdate at ih ⊢
    rw [List.map_cons]
    have ht := ih (fun kv2 h2 hk2 => h kv2 (List.mem_cons_of_mem _ h2) hk2)
    rw [ht]
    by_cases hk : kv.1 = a
    · have hv : kv.2 = s := h kv (List.mem_cons_self _ _) hk
      have he : (if kv.1 = a then (kv.1, s) else kv) = kv := by
        rw [if_pos hk, ← hv]
      rw [he]
    · simp [hk]

/-- After `n+1` retains, the refcount has grown by `n+1` and the map entry
shows the grown value. -/
theorem retainN_formula (n : Nat) :
    ∀ (s : sharedBackendConn) (p : sharedBackendConnPool), 1 ≤ s.refcnt →
      retainN (n + 1) (some s) p
        = Except.ok (some { s with refcnt := s.refcnt + ((n + 1 : Nat) : Int) },
            { p with pool := poolUpdate p.pool s.addr { s with refcnt := s.refcnt + ((n + 1 : Nat) : Int) } }) := by
  induction n with
  | zero =>
    intro s p h
    have h1 : ¬ s.refcnt ≤ 0 := by omega
    simp [retainN, sharedBackendConn.Retain, h1]
  | succ n ih =>
    intro s p h
    have h1 : ¬ s.refcnt ≤ 0 := by omega
    have hstep : retainN (n + 1 + 1) (some s) p
        = retainN (n + 1) (some { s with refcnt := s.refcnt + 1 })
            { p with pool := poolUpdate p.pool s.addr { s with refcnt := s.refcnt + 1 } } := by
      simp [retainN, sharedBackendConn.Retain, h1]
    rw [hstep, ih _ _ (by simp; omega)]
    simp only [poolUpdate_update]
    have harith : s.refcnt + 1 + ((n + 1 : Nat) : Int) = s.refcnt + ((n + 1 + 1 : Nat) : Int) := by
      push_cast
      ring
    rw [harith]

/-- After `n` releases starting `n` above the base refcount, the refcount is
back at the base and no entry has been deleted. -/
theorem releaseN_formula (n : Nat) :
    ∀ (s : sharedBackendConn) (p : sharedBackendConnPool), 1 ≤ s.refcnt →
      releaseN n (some { s with refcnt := s.refcnt + (n : Int) }) p
        = Except.ok (some s,
            if n = 0 then p else { p with pool := poolUpdate p.pool s.addr s }) := by
  induction n with
  | zero =>
    intro s p h
    simp [releaseN]
  | succ n ih =>
    intro s p h
    have h1 : ¬ (s.refcnt + ((n : Int) + 1) ≤ 0) := by omega
    have h2 : ¬ (s.refcnt + ((n : Int) + 1) - 1 = 0) := by omega
    have hstep : releaseN (n + 1) (some { s with refcnt := s.refcnt + ((n + 1 : Nat) : Int) }) p
        = releaseN n (some { s with refcnt := s.refcnt + ((n + 1 : Nat) : Int) - 1 })
            { p with pool := poolUpdate p.pool s.addr { s with refcnt := s.refcnt + ((n + 1 : Nat) : Int) - 1 } } := by
      simp [releaseN, sharedBackendConn.Release, h1, h2]
    have harith : s.refcnt + ((n + 1 : Nat) : Int) - 1 = s.refcnt + ((n : Nat) : Int) := by
      push_cast
      ring
    rw [hstep, harith, ih s _ h]
    cases n with
    | zero => norm_num
    | succ m => simp [poolUpdate_update]

/-- C5: for an entry that is the live value in the pool map with positive
refcount, `n` retains followed by `n` releases restore the original receiver
and the original pool exactly: nothing is closed, nothing is deleted. -/
theorem retain_release_roundtrip (n : Nat) (s : sharedBackendConn)
    (p : sharedBackendConnPool) (hr : 1 ≤ s.refcnt)
    (hmem : ∀ kv ∈ p.pool, kv.1 = s.addr → kv.2 = s) :
    (retainN n (some s) p).bind (fun sp => releaseN n sp.1 sp.2)
      = Except.ok (some s, p) := by
  cases n with
  | zero => rfl
  | succ m =>
    rw [retainN_formula m s p hr]
    simp only [Except.bind]
    rw [releaseN_formula (m + 1) s _ hr]
    simp [poolUpdate_update, poolUpdate_self p.pool s.addr s hmem]

/-- Witness for `retain_release_roundtrip`: two retains and two releases on
a concrete live entry restore the pool exactly. -/
theorem retain_release_roundtrip_witness :
    (1 ≤ sbcSingleFix.refcnt
      ∧ ∀ kv ∈ poolFix.pool, kv.1 = sbcSingleFix.addr → kv.2 = sbcSingleFix)
    ∧ (retainN 2 (some sbcSingleFix) poolFix).bind (fun sp => releaseN 2 sp.1 sp.2)
        = Except.ok (some sbcSingleFix, poolFix) :=
  ⟨⟨by decide, by decide⟩,
   retain_release_roundtrip 2 sbcSingleFix poolFix (by decide) (by decide)⟩

/-- C6: `Pool.Retain(addr, config)` returns the existing entry with its
refcount incremented when the map contains `addr`; otherwise it builds a
fresh entry at refcount 1, whose grid is fully populated with
`database × parallel` started connections (slot `[db][i]` carries database
index `db`), whose `single` shortcut is set exactly when both dimensions are
1, inserts it under `addr` and returns it. -/
theorem pool_Retain_spec (p : sharedBackendConnPool) (addr : String)
    (config : Config) (s : sharedBackendConn) :
    (poolLookup p.pool addr = some s → 1 ≤ s.refcnt →
        sharedBackendConnPool.Retain p addr config
          = Except.ok (some { s with refcnt := s.refcnt + 1 },
              { p with pool := poolUpdate p.pool s.addr { s with refcnt := s.refcnt + 1 } }))
    ∧ (poolLookup p.pool addr = none →
        sharedBackendConnPool.Retain p addr config
          = Except.ok (some (newSharedBackendConn addr config p),
              { p with pool := p.pool ++ [(addr, newSharedBackendConn addr config p)] })
        ∧ (newSharedBackendConn addr config p).refcnt = 1
        ∧ (newSharedBackendConn addr config p).conns.length = p.database
        ∧ (∀ row ∈ (newSharedBackendConn addr config p).conns, row.length = p.parallel)
        ∧ (∀ db, db < p.database → ∀ i, i < p.parallel →
            ((newSharedBackendConn addr config p).conns.get? db).bind (fun row => row.get? i)
              = some (NewBackendConn addr db config))
        ∧ (newSharedBackendConn addr config p).single
            = (if p.database = 1 ∧ p.parallel = 1
               then some (NewBackendConn addr 0 config) else none)) := by
  constructor
  · intro hl hr
    have h1 : ¬ s.refcnt ≤ 0 := by omega
    unfold sharedBackendConnPool.Retain
    rw [hl]
    simp [sharedBackendConn.Retain, h1]
  · intro hl
    refine ⟨?_, rfl, ?_, ?_, ?_, ?_⟩
    · unfold sharedBackendConnPool.Retain
      rw [hl]
    · simp [newSharedBackendConn]
    · intro row hrow
      simp only [newSharedBackendConn, List.mem_map] at hrow
      obtain ⟨db, _, hdb⟩ := hrow
      subst hdb
      simp
    · intro db hdb i hi
      simp [newSharedBackendConn, List.getElem?_map, List.getElem?_range hdb,
        List.getElem?_replicate, hi]
    · by_cases hd : p.database = 1
      · by_cases hp : p.parallel = 1
        · simp [newSharedBackendConn, hd, hp, List.range_succ]
        · simp [newSharedBackendConn, hd, hp, List.range_succ]
      · simp [newSharedBackendConn, hd]

/-- Witness for `pool_Retain_spec`: retaining an unknown address on a
concrete empty 1×1 pool inserts a fresh entry with the `single` shortcut. -/
theorem pool_Retain_spec_witness :
    poolLookup poolEmptyFix.pool "z:1" = none
    ∧ sharedBackendConnPool.Retain poolEmptyFix "z:1" {}
        = Except.ok (some (newSharedBackendConn "z:1" {} poolEmptyFix),
            { poolEmptyFix with pool := poolEmptyFix.pool ++ [("z:1", newSharedBackendConn "z:1" {} poolEmptyFix)] })
    ∧ (newSharedBackendConn "z:1" {} poolEmptyFix).single
        = (if poolEmptyFix.database = 1 ∧ poolEmptyFix.parallel = 1
           then some (NewBackendConn "z:1" 0 {}) else none) := by
  have h := (pool_Retain_spec poolEmptyFix "z:1" {} sbcSingleFix).2 rfl
  exact ⟨rfl, h.1, h.2.2.2.2.2⟩

/-- One doubling step of the clamped generator advances the closed form. -/
theorem delayStepEq (e : Nat) :
    Nat.min (Nat.max (Nat.min (50 * 2 ^ e) 5000 * 2) 50) 5000
      = Nat.min (50 * 2 ^ (e + 1)) 5000 := by
  have h1 : 1 ≤ 2 ^ e := Nat.one_le_two_pow
  have ht : 50 ≤ 50 * 2 ^ e := by
    calc 50 = 50 * 1 := by ring
    _ ≤ 50 * 2 ^ e := Nat.mul_le_mul_left 50 h1
  have h2 : 50 * 2 ^ (e + 1) = 50 * 2 ^ e * 2 := by
    rw [pow_succ]
    ring
  rw [h2]
  generalize 50 * 2 ^ e = t at ht ⊢
  simp only [Nat.min_def, Nat.max_def]
  split_ifs <;> omega

/-- The retry state after `k` consecutive failed sessions: the failure
counter equals `k` and the generator holds the clamped exponential value. -/
theorem iterRetry_invariant (k : Nat) :
    (iterRetry k).1.fails = k
    ∧ (iterRetry k).1.delay.dmin = 50
    ∧ (iterRetry k).1.delay.dmax = 5000
    ∧ (iterRetry k).1.delay.value
        = (if k ≤ 10 then 0 else Nat.min (50 * 2 ^ (k - 11)) 5000) := by
  induction k with
  | zero => exact ⟨rfl, rfl, rfl, rfl⟩
  | succ k ih =>
    obtain ⟨hf, hmin, hmax, hval⟩ := ih
    by_cases hk : k + 1 ≤ 10
    · have hk0 : k ≤ 10 := by omega
      have hcond : (iterRetry k).1.fails + 1 ≤ 10 := by rw [hf]; exact hk
      refine ⟨?_, ?_, ?_, ?_⟩ <;>
        simp [iterRetry, delayBeforeRetry, hcond, hf, hmin, hmax, hval, hk, hk0]
    · have hcond : ¬ ((iterRetry k).1.fails + 1 ≤ 10) := by rw [hf]; exact hk
      have hk9 : ¬ k ≤ 9 := by omega
      refine ⟨?_, ?_, ?_, ?_⟩
      · simp [iterRetry, delayBeforeRetry, hcond, hf, hk9]
      · simp [iterRetry, delayBeforeRetry, hcond, hf, hk9, DelayExp2.After, hmin]
      · simp [iterRetry, delayBeforeRetry, hcond, hf, hk9, DelayExp2.After, hmax]
      · simp only [iterRetry, delayBeforeRetry, hcond, DelayExp2.After]
        rw [hmin, hmax, hval]
        by_cases hk2 : k ≤ 10
        · have hk10 : k = 10 := by omega
          subst hk10
          norm_num
        · rw [if_neg hk2, if_neg hk, delayStepEq]
          have he : k - 11 + 1 = k + 1 - 11 := by omega
          rw [he]
          simp

/-- Every request drained by the backoff select loop is completed with the
reset error. -/
theorem drainDuringDelay_err (evs : List (Bool × RetryEvent)) :
    ∀ r ∈ drainDuringDelay evs, r.err = some Err.backendConnReset := by
  induction evs with
  | nil =>
    intro r h
    simp [drainDuringDelay] at h
  | cons e rest ih =>
    obtain ⟨closed, ev⟩ := e
    cases closed
    · cases ev with
      | timerFired =>
        intro r h
        simp [drainDuringDelay] at h
      | inputChannelClosed =>
        intro r h
        simp [drainDuringDelay] at h
      | arrived r0 =>
        intro r h
        simp only [drainDuringDelay, Bool.false_eq_true, if_false, List.mem_cons] at h
        rcases h with h | h
        · rw [h]
          exact (setResponse_fields r0 none (some Err.backendConnReset)).2
        · exact ih r h
    · intro r h
      simp [drainDuringDelay] at h

/-- Counterexample to C7 as stated: after 18 consecutive failures the wait
is the cap 5000ms, which does not lie in the claimed interval
`[50·2^(18−11), 5000] = [6400, 5000]`. -/
theorem backoff_claim_counterexample :
    kthWait 18 = 5000 ∧ ¬ (50 * 2 ^ (18 - 11) ≤ kthWait 18) := by
  constructor
  · decide
  · decide

/-- C7 (amended): after `K` consecutive failed writer sessions the wait is 0
for `K ≤ 10` and `min(50·2^(K−11), 5000)` ms for `K ≥ 11` (so it lies in
`[50·2^(K−11), 5000]` only until the doubling reaches the 5000ms cap);
every request received from the input queue during the wait is completed
with `ErrBackendConnReset`; the wait is aborted when the connection is
closed; and a successful handshake resets the failure counter and the delay
generator. -/
theorem backoff_amended_spec (k : Nat) (evs : List (Bool × RetryEvent))
    (ev : RetryEvent) (st : RetryState) :
    (k ≤ 10 → kthWait k = 0)
    ∧ (11 ≤ k → kthWait k = Nat.min (50 * 2 ^ (k - 11)) 5000)
    ∧ (∀ r ∈ drainDuringDelay evs, r.err = some Err.backendConnReset)
    ∧ drainDuringDelay ((true, ev) :: evs) = []
    ∧ (handshakeSuccess st).fails = 0
    ∧ (handshakeSuccess st).delay.value = 0 := by
  refine ⟨?_, ?_, drainDuringDelay_err evs, rfl, rfl, rfl⟩
  · intro hk
    cases k with
    | zero => rfl
    | succ j =>
      have hf := (iterRetry_invariant j).1
      have hcond : (iterRetry j).1.fails + 1 ≤ 10 := by omega
      simp [kthWait, iterRetry, delayBeforeRetry, hcond]
  · intro hk
    cases k with
    | zero => omega
    | succ j =>
      have hf := (iterRetry_invariant j).1
      have hcond : ¬ ((iterRetry j).1.fails + 1 ≤ 10) := by omega
      have hw : kthWait (j + 1) = (iterRetry (j + 1)).1.delay.value := by
        simp [kthWait, iterRetry, delayBeforeRetry, hcond, DelayExp2.After]
      rw [hw, (iterRetry_invariant (j + 1)).2.2.2, if_neg (by omega)]

/-- Witness for `backoff_amended_spec`: the 12th failure waits 100ms and a
concrete drained request carries the reset error. -/
theorem backoff_amended_spec_witness :
    ((11 : Nat) ≤ 12 ∧ kthWait 12 = Nat.min (50 * 2 ^ (12 - 11)) 5000)
    ∧ ∀ r ∈ drainDuringDelay [(false, RetryEvent.arrived pingRequest)],
        r.err = some Err.backendConnReset :=
  ⟨⟨by decide, (backoff_amended_spec 12 [] RetryEvent.timerFired {}).2.1 (by decide)⟩,
   (backoff_amended_spec 12 [(false, RetryEvent.arrived pingRequest)]
     RetryEvent.timerFired {}).2.2.1⟩

end Codis
